import Mathlib

/- Shallow embedding of the field-service web application (app.py):
   data model (Address, Zone, Job, JobHistory), scheduling conditions,
   job completion, payment marking, earnings aggregation and address
   resolution. Times are modelled as integers (seconds); calendar dates
   as integers (day numbers); prices as integers (pence). Database
   tables are lists of rows; autoincrement ids are one more than the
   maximum existing id. -/

def oneDay : Int := 86400

def oneWeek : Int := 7 * oneDay

/- Counterpart of datetime.date(): the calendar day of a moment in time. -/
def dateOfTime (t : Int) : Int := t / oneDay

structure Address where
  idaddress : Nat
  house_num_name : String
  street_name : String
  postcode : String
  latitude : Option String
  longitude : Option String
deriving DecidableEq

structure Zone where
  idzone : Nat
  name : String
deriving DecidableEq

structure Job where
  idjob : Nat
  price : Option Int
  dateLastDone : Option Int
  frequency : Option Int
  address_id : Option Nat
  zone_id : Option Nat
  customer_id : Option Nat
  info : Option String
  date_next_due : Option Int
  payment_type_id : Option Int
deriving DecidableEq

structure JobHistory where
  idjob_history : Nat
  job_id : Nat
  timestamp : Int
  paid : Bool
  payment_type_id : Option Int
deriving DecidableEq

structure DB where
  addresses : List Address
  zones : List Zone
  jobs : List Job
  histories : List JobHistory
deriving DecidableEq

/- The fixed payment-type table of app.py. -/
def PAYMENT_TYPES : List (Int × String) :=
  [(1, "Cash"), (2, "Card"), (3, "Bank Transfer")]

def paymentTypeIds : List Int := PAYMENT_TYPES.map Prod.fst

/- parse_payment_type_id: a raw form value already parsed to an integer
   when possible (none models a missing or non-integer value); valid only
   when the integer is an id of the fixed payment-type table. -/
def parse_payment_type_id (raw : Option Int) : Option Int :=
  match raw with
  | none => none
  | some v => if v ∈ paymentTypeIds then some v else none

/- build_due_condition: date_next_due <= reference_time OR
   (date_next_due IS NULL AND dateLastDone IS NULL). A NULL compared
   with <= is not true in SQL, hence the none branch is false. -/
def build_due_condition (reference_time : Int) (j : Job) : Bool :=
  (match j.date_next_due with
   | some d => decide (d ≤ reference_time)
   | none => false)
  || (j.date_next_due.isNone && j.dateLastDone.isNone)

/- build_schedule_condition: frequency IS NOT NULL OR dateLastDone IS NULL. -/
def build_schedule_condition (j : Job) : Bool :=
  j.frequency.isSome || j.dateLastDone.isNone

/- Autoincrement: one more than the largest id already present. -/
def nextId (ids : List Nat) : Nat := ids.foldr (fun a b => max a b) 0 + 1

/- complete_job: validates the payment type when paid, then updates the
   job dates and appends one history row, all in one transaction. The
   second component is the error message when the request is rejected;
   a rejected request leaves the database untouched (first component). -/
def complete_job (s : DB) (jobId : Nat) (paid : Bool) (ptRaw : Option Int)
    (now : Int) : DB × Option String :=
  match s.jobs.find? (fun j => j.idjob == jobId) with
  | none => (s, some "404: job not found")
  | some job =>
    let payment_type_value := parse_payment_type_id ptRaw
    if paid && payment_type_value.isNone then
      (s, some "Please select how the job was paid.")
    else
      let payment_type_value := if !paid then none else payment_type_value
      let job' : Job :=
        { job with
          dateLastDone := some (dateOfTime now)
          date_next_due :=
            match job.frequency with
            | some f => if f ≠ 0 then some (now + f * oneDay) else none
            | none => none }
      let newHist : JobHistory :=
        { idjob_history := nextId (s.histories.map JobHistory.idjob_history)
          job_id := job.idjob
          timestamp := now
          paid := paid
          payment_type_id := payment_type_value }
      ({ s with
          jobs := s.jobs.map (fun j => if j.idjob == jobId then job' else j)
          histories := s.histories ++ [newHist] }, none)

/-- Claim C2: due_or_overdue(job, now) holds iff date_next_due is at most
now, or both date_next_due and dateLastDone are null, so never-scheduled
jobs count as due. -/
theorem claim2_due_or_overdue_iff (j : Job) (now : Int) :
    build_due_condition now j = true ↔
      ((∃ d, j.date_next_due = some d ∧ d ≤ now) ∨
       (j.date_next_due = none ∧ j.dateLastDone = none)) := by
  unfold build_due_condition
  cases hd : j.date_next_due <;> cases hl : j.dateLastDone <;> simp

/- Helper: after updating exactly the jobs whose id matches, find? returns
   the updated job. -/
theorem find?_update_self (l : List Job) (jobId : Nat) (job job' : Job)
    (hfind : l.find? (fun j => j.idjob == jobId) = some job)
    (hid : job'.idjob = job.idjob) :
    (l.map (fun j => if j.idjob == jobId then job' else j)).find?
      (fun j => j.idjob == jobId) = some job' := by
  have hj' := List.find?_some hfind
  have hj : (job.idjob == jobId) = true := hj'
  rw [List.find?_map]
  have hcmp : ((fun j : Job => j.idjob == jobId) ∘
      fun j : Job => if j.idjob == jobId then job' else j)
      = (fun j : Job => j.idjob == jobId) := by
    funext j
    by_cases h : (j.idjob == jobId) = true
    · simp [Function.comp, h, hid, hj]
    · simp [Function.comp, h]
  rw [hcmp, hfind]
  have hj2 : job.idjob = jobId := by simpa using hj
  simp [hj2]

/- Helper: the exact shape of the database after a successful completion. -/
theorem complete_job_ok_shape (s : DB) (jobId : Nat) (paid : Bool)
    (ptRaw : Option Int) (now : Int) (s' : DB)
    (hok : complete_job s jobId paid ptRaw now = (s', none)) :
    ∃ job, s.jobs.find? (fun j => j.idjob == jobId) = some job ∧
      s' = { s with
        jobs := s.jobs.map (fun j => if j.idjob == jobId then
          { job with
            dateLastDone := some (dateOfTime now)
            date_next_due :=
              match job.frequency with
              | some f => if f ≠ 0 then some (now + f * oneDay) else none
              | none => none } else j)
        histories := s.histories ++
          [{ idjob_history := nextId (s.histories.map JobHistory.idjob_history)
             job_id := job.idjob
             timestamp := now
             paid := paid
             payment_type_id := if !paid then none
               else parse_payment_type_id ptRaw }] } := by
  cases hfind : s.jobs.find? (fun j => j.idjob == jobId) with
  | none => simp [complete_job, hfind] at hok
  | some job =>
    refine ⟨job, rfl, ?_⟩
    by_cases hrej : (paid && (parse_payment_type_id ptRaw).isNone) = true
    · simp [complete_job, hfind, hrej] at hok
    · simp only [complete_job, hfind, Bool.not_eq_true] at hok
      rw [if_neg hrej] at hok
      exact (Prod.mk.injEq _ _ _ _ ▸ hok).1.symm

/-- Claim C1, amended: a successful complete(job, paid, payment_type, now)
sets the job dateLastDone to the date of now, sets date_next_due to
now plus frequency days when the frequency is set and nonzero and to null
when the frequency is null or zero, and appends exactly one JobHistory row
with the job id, timestamp now, the given paid flag, and the payment type
(null when unpaid). -/
theorem claim1_complete_job_effects (s : DB) (jobId : Nat) (paid : Bool)
    (ptRaw : Option Int) (now : Int) (job : Job) (s' : DB)
    (hfind : s.jobs.find? (fun j => j.idjob == jobId) = some job)
    (hok : complete_job s jobId paid ptRaw now = (s', none)) :
    ((s'.jobs.find? (fun j => j.idjob == jobId)).map Job.dateLastDone
        = some (some (dateOfTime now))) ∧
    (∀ f, job.frequency = some f → f ≠ 0 →
      (s'.jobs.find? (fun j => j.idjob == jobId)).map Job.date_next_due
        = some (some (now + f * oneDay))) ∧
    ((job.frequency = none ∨ job.frequency = some 0) →
      (s'.jobs.find? (fun j => j.idjob == jobId)).map Job.date_next_due
        = some none) ∧
    s'.histories.take s.histories.length = s.histories ∧
    s'.histories.length = s.histories.length + 1 ∧
    (s'.histories.getLast?).map
        (fun h => (h.job_id, h.timestamp, h.paid, h.payment_type_id))
      = some (job.idjob, now, paid,
          if paid then parse_payment_type_id ptRaw else none) := by
  obtain ⟨job2, hfind2, hs'⟩ :=
    complete_job_ok_shape s jobId paid ptRaw now s' hok
  rw [hfind] at hfind2
  injection hfind2 with hje
  subst hje
  subst hs'
  have hfu := find?_update_self s.jobs jobId job
    { job with
      dateLastDone := some (dateOfTime now)
      date_next_due :=
        match job.frequency with
        | some f => if f ≠ 0 then some (now + f * oneDay) else none
        | none => none } hfind rfl
  refine ⟨?_, ?_, ?_, ?_, ?_, ?_⟩
  · rw [hfu]
    rfl
  · intro f hf hf0
    rw [hfu]
    simp [hf, hf0]
  · intro hcase
    rw [hfu]
    rcases hcase with hc | hc <;> simp [hc]
  · simp [List.take_left]
  · simp
  · simp only [List.getLast?_concat, Option.map]
    cases paid <;> simp

/- Concrete rows used to instantiate the theorems. -/
def wJob : Job :=
  { idjob := 2, price := some 3000, dateLastDone := none, frequency := some 14
    address_id := none, zone_id := none, customer_id := none, info := none
    date_next_due := none, payment_type_id := none }

def wDB : DB := { addresses := [], zones := [], jobs := [wJob], histories := [] }

def cexJob : Job :=
  { idjob := 1, price := some 5000, dateLastDone := none, frequency := some 0
    address_id := none, zone_id := none, customer_id := none, info := none
    date_next_due := none, payment_type_id := none }

def cexDB : DB :=
  { addresses := [], zones := [], jobs := [cexJob], histories := [] }

/-- Witness for claim C1: a job with frequency 14 days, completed paid by
Cash at time 86400, ends with date_next_due equal to now plus 14 days and
exactly one new history row with matching timestamp, paid flag and
payment type. -/
theorem claim1_witness :
    ((complete_job wDB 2 true (some 1) 86400).1.jobs.find?
        (fun j => j.idjob == 2)).map Job.dateLastDone
      = some (some (dateOfTime 86400)) ∧
    ((complete_job wDB 2 true (some 1) 86400).1.jobs.find?
        (fun j => j.idjob == 2)).map Job.date_next_due
      = some (some (86400 + 14 * oneDay)) ∧
    (complete_job wDB 2 true (some 1) 86400).1.histories.length
      = wDB.histories.length + 1 ∧
    ((complete_job wDB 2 true (some 1) 86400).1.histories.getLast?).map
        (fun h => (h.job_id, h.timestamp, h.paid, h.payment_type_id))
      = some (wJob.idjob, 86400, true, parse_payment_type_id (some 1)) := by
  have T := claim1_complete_job_effects wDB 2 true (some 1) 86400 wJob
    ((complete_job wDB 2 true (some 1) 86400).1) (by decide) (by decide)
  refine ⟨T.1, T.2.1 14 rfl (by decide), T.2.2.2.2.1, ?_⟩
  have hlast := T.2.2.2.2.2
  simpa using hlast

/-- Counterexample to claim C1 as stated: at a job whose frequency is the
set value 0, an accepted completion leaves date_next_due null rather than
setting it to now plus 0 days. -/
theorem claim1_counterexample :
    cexJob.frequency = some 0 ∧
    (complete_job cexDB 1 false none 86400).2 = none ∧
    ((complete_job cexDB 1 false none 86400).1.jobs.find?
        (fun j => j.idjob == 1)).map Job.date_next_due = some none ∧
    ((complete_job cexDB 1 false none 86400).1.jobs.find?
        (fun j => j.idjob == 1)).map Job.date_next_due
      ≠ some (some (86400 + 0 * oneDay)) := by
  decide

/-- Claim C3: completing with paid true and a payment type that is not an
id of the fixed payment-type table (missing values included) is rejected
with a validation error and the database is returned unchanged, so the job
dates are untouched and no history row is created. -/
theorem claim3_complete_rejects_invalid_payment (s : DB) (jobId : Nat)
    (ptRaw : Option Int) (now : Int) (job : Job)
    (hfind : s.jobs.find? (fun j => j.idjob == jobId) = some job)
    (hinvalid : ∀ v, ptRaw = some v → v ∉ paymentTypeIds) :
    complete_job s jobId true ptRaw now =
      (s, some "Please select how the job was paid.") := by
  have hparse : parse_payment_type_id ptRaw = none := by
    cases ptRaw with
    | none => rfl
    | some v => simp [parse_payment_type_id, hinvalid v rfl]
  simp [complete_job, hfind, hparse]

/-- Witness for claim C3: completing the concrete job paid with a missing
payment type, and again with the invalid payment type 99, is rejected and
leaves the concrete database unchanged. -/
theorem claim3_witness :
    complete_job wDB 2 true none 86400 =
      (wDB, some "Please select how the job was paid.") ∧
    complete_job wDB 2 true (some 99) 86400 =
      (wDB, some "Please select how the job was paid.") := by
  constructor
  · exact claim3_complete_rejects_invalid_payment wDB 2 none 86400 wJob
      (by decide) (fun v h => nomatch h)
  · exact claim3_complete_rejects_invalid_payment wDB 2 (some 99) 86400 wJob
      (by decide) (by intro v h; cases h; decide)

/-- Claim C9: an accepted completion of a job whose frequency is the set
value 0 leaves date_next_due null, exactly as for a job whose frequency is
null: the code tests the truthiness of frequency, not only nullness. -/
theorem claim9_zero_frequency_null_due (s : DB) (jobId : Nat) (paid : Bool)
    (ptRaw : Option Int) (now : Int) (job : Job) (s' : DB)
    (hfind : s.jobs.find? (fun j => j.idjob == jobId) = some job)
    (hfreq : job.frequency = some 0 ∨ job.frequency = none)
    (hok : complete_job s jobId paid ptRaw now = (s', none)) :
    (s'.jobs.find? (fun j => j.idjob == jobId)).map Job.date_next_due
      = some none := by
  obtain ⟨job2, hfind2, hs'⟩ :=
    complete_job_ok_shape s jobId paid ptRaw now s' hok
  rw [hfind] at hfind2
  injection hfind2 with hje
  subst hje
  subst hs'
  have hfu := find?_update_self s.jobs jobId job
    { job with
      dateLastDone := some (dateOfTime now)
      date_next_due :=
        match job.frequency with
        | some f => if f ≠ 0 then some (now + f * oneDay) else none
        | none => none } hfind rfl
  rw [hfu]
  rcases hfreq with hc | hc <;> simp [hc]

/-- Witness for claim C9: completing the concrete frequency-0 job is
accepted and ends with a null date_next_due. -/
theorem claim9_witness :
    ((complete_job cexDB 1 true (some 2) 86400).1.jobs.find?
        (fun j => j.idjob == 1)).map Job.date_next_due = some none :=
  claim9_zero_frequency_null_due cexDB 1 true (some 2) 86400 cexJob
    ((complete_job cexDB 1 true (some 2) 86400).1)
    (by decide) (Or.inl rfl) (by decide)

/- unpaid_earnings (dashboard): SUM(coalesce(Job.price, 0)) over
   Job JOIN JobHistory ON Job.idjob = JobHistory.job_id WHERE paid = false. -/
def unpaid_earnings (s : DB) : Int :=
  (s.jobs.flatMap (fun j => s.histories.filterMap (fun h =>
    if h.job_id == j.idjob && (h.paid == false) then some (j.price.getD 0)
    else none))).sum

/- theoretical_earnings (stats): SUM(Job.price) over the whole Jobs table;
   SQL SUM skips NULL prices. -/
def theoretical_earnings (s : DB) : Int := (s.jobs.filterMap Job.price).sum

/- actual_earnings (stats): 0 when the history table is empty, else
   SUM(Job.price) over the join restricted to paid rows. -/
def actual_earnings (s : DB) : Int :=
  if 0 < s.histories.length then
    (s.jobs.flatMap (fun j => s.histories.filterMap (fun h =>
      if h.job_id == j.idjob && (h.paid == true) then j.price else none))).sum
  else 0

/- The per-row reading used by the specification: every history row kept by
   the given condition contributes the price of the job it belongs to. -/
def rowSum (s : DB) (keep : JobHistory → Bool) : Int :=
  ((s.histories.filter keep).map (fun h =>
    ((s.jobs.find? (fun j => j.idjob == h.job_id)).map
      (fun j => j.price.getD 0)).getD 0)).sum

/- Helper sum lemmas linking the join form with the per-row form. -/
theorem sum_flatMap {α : Type} (l : List α) (f : α → List Int) :
    (l.flatMap f).sum = (l.map (fun a => (f a).sum)).sum := by
  induction l with
  | nil => rfl
  | cons a t ih => simp [List.flatMap_cons, ih]

theorem sum_filterMap_ite {α : Type} (l : List α) (c : α → Bool)
    (v : α → Int) :
    (l.filterMap (fun a => if c a then some (v a) else none)).sum
      = (l.map (fun a => if c a then v a else 0)).sum := by
  induction l with
  | nil => rfl
  | cons a t ih =>
    by_cases h : c a = true
    · simp [List.filterMap_cons, h, ih]
    · simp [List.filterMap_cons, h, ih]

theorem sum_filterMap_option {α : Type} (l : List α) (c : α → Bool)
    (o : Option Int) :
    (l.filterMap (fun a => if c a then o else none)).sum
      = (l.filterMap (fun a => if c a then some (o.getD 0) else none)).sum := by
  cases o with
  | none =>
    have hl : (l.filterMap (fun a => if c a then (none : Option Int)
        else none)) = [] := by
      induction l with
      | nil => rfl
      | cons a t ih => simp [List.filterMap_cons, ite_self, ih]
    rw [hl, sum_filterMap_ite]
    simp [ite_self]
  | some p => rfl

theorem sum_map_filter {α : Type} (l : List α) (c : α → Bool)
    (v : α → Int) :
    ((l.filter c).map v).sum = (l.map (fun a => if c a then v a else 0)).sum := by
  induction l with
  | nil => rfl
  | cons a t ih =>
    by_cases h : c a = true
    · simp [List.filter_cons, h, ih]
    · simp [List.filter_cons, h, ih]

/- The central join lemma: when job ids are unique, the SQL join grouped by
   job equals the per-history-row sum through a lookup of the owning job. -/
theorem join_sum_eq_lookup (jobs : List Job) (hs : List JobHistory)
    (c : JobHistory → Bool) (g : Job → Int)
    (nd : (jobs.map Job.idjob).Nodup) :
    (jobs.flatMap (fun j => hs.filterMap (fun h =>
        if h.job_id == j.idjob && c h then some (g j) else none))).sum
      = (hs.map (fun h => if c h then
          ((jobs.find? (fun j => j.idjob == h.job_id)).map g).getD 0
        else 0)).sum := by
  induction jobs with
  | nil => simp [ite_self]
  | cons j rest ih =>
    simp only [List.map_cons, List.nodup_cons] at nd
    obtain ⟨hj, nd'⟩ := nd
    rw [List.flatMap_cons, List.sum_append, ih nd', sum_filterMap_ite,
      ← List.sum_map_add]
    congr 1
    apply List.map_congr_left
    intro h _
    by_cases hc : c h = true
    · by_cases hm : (h.job_id == j.idjob) = true
      · have hm' : h.job_id = j.idjob := by simpa using hm
        have hnone : rest.find? (fun jb => jb.idjob == h.job_id) = none := by
          apply List.find?_eq_none.mpr
          intro jb hjb
          simp only [beq_iff_eq]
          intro heq
          have hmem := List.mem_map_of_mem Job.idjob hjb
          rw [heq, hm'] at hmem
          exact hj hmem
        have hcons : (j :: rest).find? (fun jb => jb.idjob == h.job_id)
            = some j := by
          have hpj : (j.idjob == h.job_id) = true := by simp [hm']
          simp [List.find?_cons, hpj]
        simp [hc, hm, hnone, hcons]
      · have hm2 : ¬ h.job_id = j.idjob := by simpa using hm
        have hpj : (j.idjob == h.job_id) = false := by
          cases hbe : (j.idjob == h.job_id) with
          | false => rfl
          | true =>
            exact absurd ((by simpa using hbe : j.idjob = h.job_id).symm) hm2
        have hcons : (j :: rest).find? (fun jb => jb.idjob == h.job_id)
            = rest.find? (fun jb => jb.idjob == h.job_id) := by
          simp [List.find?_cons, hpj]
        simp [hc, hm, hcons]
    · simp [hc]

theorem sum_filterMap_getD (l : List Job) :
    (l.filterMap Job.price).sum = (l.map (fun j => j.price.getD 0)).sum := by
  induction l with
  | nil => rfl
  | cons j t ih => cases hp : j.price <;> simp [List.filterMap_cons, hp, ih]

/-- Claim C4: unpaid_earnings equals the sum of Job.price over all
(Job, JobHistory) pairs whose history row belongs to the job and has
paid false, counted once per such unpaid row: per unpaid row the price of
its owning job is added, recomputed from the current tables. -/
theorem claim4_unpaid_earnings_per_row (s : DB)
    (nd : (s.jobs.map Job.idjob).Nodup) :
    unpaid_earnings s = rowSum s (fun h => h.paid == false) := by
  unfold unpaid_earnings rowSum
  rw [join_sum_eq_lookup s.jobs s.histories (fun h => h.paid == false)
    (fun j => j.price.getD 0) nd, sum_map_filter]

/- Concrete database with one job completed twice, both times unpaid. -/
def dupJob : Job :=
  { idjob := 1, price := some 50, dateLastDone := none, frequency := some 7
    address_id := none, zone_id := none, customer_id := none, info := none
    date_next_due := none, payment_type_id := none }

def dupDB : DB :=
  { addresses := [], zones := [], jobs := [dupJob]
    histories :=
      [{ idjob_history := 1, job_id := 1, timestamp := 100, paid := false
         payment_type_id := none },
       { idjob_history := 2, job_id := 1, timestamp := 200, paid := false
         payment_type_id := none }] }

/-- Witness for claim C4: a job with price 50 and two unpaid completions
contributes its price twice, so unpaid_earnings is 100. -/
theorem claim4_witness :
    unpaid_earnings dupDB = rowSum dupDB (fun h => h.paid == false) ∧
    unpaid_earnings dupDB = 100 :=
  ⟨claim4_unpaid_earnings_per_row dupDB (by decide), by decide⟩

/-- Claim C6: theoretical_earnings sums each job price exactly once over
the whole Jobs table and does not depend on the history at all, while
actual_earnings adds the price of the owning job once per paid history
row. -/
theorem claim6_earnings_reconciliation (s : DB)
    (nd : (s.jobs.map Job.idjob).Nodup) :
    theoretical_earnings s = (s.jobs.map (fun j => j.price.getD 0)).sum ∧
    (∀ hs', theoretical_earnings { s with histories := hs' }
        = theoretical_earnings s) ∧
    actual_earnings s = rowSum s (fun h => h.paid == true) := by
  refine ⟨sum_filterMap_getD s.jobs, fun hs' => rfl, ?_⟩
  unfold actual_earnings
  by_cases hemp : 0 < s.histories.length
  · rw [if_pos hemp]
    have hconv : (s.jobs.flatMap (fun j => s.histories.filterMap (fun h =>
        if h.job_id == j.idjob && (h.paid == true) then j.price
        else none))).sum
      = (s.jobs.flatMap (fun j => s.histories.filterMap (fun h =>
        if h.job_id == j.idjob && (h.paid == true) then some (j.price.getD 0)
        else none))).sum := by
      rw [sum_flatMap, sum_flatMap]
      congr 1
      apply List.map_congr_left
      intro j _
      exact sum_filterMap_option s.histories _ j.price
    rw [hconv, join_sum_eq_lookup s.jobs s.histories (fun h => h.paid == true)
      (fun j => j.price.getD 0) nd]
    unfold rowSum
    rw [sum_map_filter]
  · rw [if_neg hemp]
    have hnil : s.histories = [] := by
      cases hs : s.histories with
      | nil => rfl
      | cons a t => rw [hs] at hemp; simp at hemp
    unfold rowSum
    rw [hnil]
    rfl

/- Concrete database realizing the reconciliation scenario: price 50,
   frequency 7 days, completed twice, first paid then unpaid. -/
def scenDB : DB :=
  { addresses := [], zones := [], jobs := [dupJob]
    histories :=
      [{ idjob_history := 1, job_id := 1, timestamp := 100, paid := true
         payment_type_id := some 1 },
       { idjob_history := 2, job_id := 1, timestamp := 200, paid := false
         payment_type_id := none }] }

/-- Witness for claim C6: in the two-completion scenario actual_earnings
contains the first 50, unpaid_earnings the second 50, and
theoretical_earnings counts the price of the job once. -/
theorem claim6_witness :
    actual_earnings scenDB = rowSum scenDB (fun h => h.paid == true) ∧
    actual_earnings scenDB = 50 ∧
    unpaid_earnings scenDB = 50 ∧
    theoretical_earnings scenDB = 50 :=
  ⟨(claim6_earnings_reconciliation scenDB (by decide)).2.2,
   by decide, by decide, by decide⟩

/- Address lookup used by the CRUD handlers: exact match on the triple
   (house_num_name, street_name, postcode). -/
def addr_matches (house street post : String) (a : Address) : Bool :=
  a.house_num_name == house && a.street_name == street && a.postcode == post

/- resolve_or_create_address: reuse the id of an existing exact match,
   otherwise insert a fresh Address row with null coordinates and return
   its new id together with the updated table. -/
def resolve_or_create_address (addrs : List Address)
    (house street post : String) : Nat × List Address :=
  match addrs.find? (addr_matches house street post) with
  | some a => (a.idaddress, addrs)
  | none =>
    let newId := nextId (addrs.map Address.idaddress)
    (newId, addrs ++
      [{ idaddress := newId, house_num_name := house, street_name := street
         postcode := post, latitude := none, longitude := none }])

/-- Claim C5: resolve_or_create_address reuses the id of an exact match
without inserting, inserts exactly one row when there is no match, and is
idempotent: running it a second time on its own output returns the same
id and the same table, so two identical calls create at most one row. -/
theorem claim5_resolve_address_idempotent (addrs : List Address)
    (house street post : String) :
    resolve_or_create_address
        (resolve_or_create_address addrs house street post).2 house street post
      = resolve_or_create_address addrs house street post ∧
    (resolve_or_create_address addrs house street post).2.length
      ≤ addrs.length + 1 ∧
    (∀ a, addrs.find? (addr_matches house street post) = some a →
      resolve_or_create_address addrs house street post = (a.idaddress, addrs)) ∧
    (addrs.find? (addr_matches house street post) = none →
      (resolve_or_create_address addrs house street post).2.length
        = addrs.length + 1) := by
  cases hf : addrs.find? (addr_matches house street post) with
  | some a =>
    refine ⟨?_, ?_, ?_, ?_⟩
    · simp [resolve_or_create_address, hf]
    · simp [resolve_or_create_address, hf]
    · intro b hb
      injection hb with hb
      subst hb
      simp [resolve_or_create_address, hf]
    · intro hnone
      exact absurd hnone (by simp)
  | none =>
    have hnew : addr_matches house street post
        { idaddress := nextId (addrs.map Address.idaddress)
          house_num_name := house, street_name := street, postcode := post
          latitude := none, longitude := none } = true := by
      simp [addr_matches]
    refine ⟨?_, ?_, ?_, ?_⟩
    · simp only [resolve_or_create_address, hf]
      rw [List.find?_append, hf]
      simp [List.find?_cons, hnew]
    · simp [resolve_or_create_address, hf]
    · intro b hb
      exact absurd hb (by simp)
    · intro _
      simp [resolve_or_create_address, hf]

/-- Witness for claim C5: starting from an empty Address table, two calls
with the identical triple return the same id and leave exactly one row. -/
theorem claim5_witness :
    resolve_or_create_address
        (resolve_or_create_address [] "12" "High Street" "AB1 2CD").2
        "12" "High Street" "AB1 2CD"
      = resolve_or_create_address [] "12" "High Street" "AB1 2CD" ∧
    (resolve_or_create_address [] "12" "High Street" "AB1 2CD").2.length
      = 1 := by
  have T := claim5_resolve_address_idempotent [] "12" "High Street" "AB1 2CD"
  exact ⟨T.1, T.2.2.2 rfl⟩

/- The ORDER BY key of the dashboard schedule query: the case expression
   maps a null date_next_due to 0 and anything else to 1, followed by
   date_next_due ascending, where SQL places null before every value. -/
def scheduleLE (a b : Job) : Bool :=
  match a.date_next_due, b.date_next_due with
  | none, _ => true
  | some _, none => false
  | some x, some y => decide (x ≤ y)

/- The dashboard schedule listing: jobs passing the schedule condition,
   ordered by the key above. -/
def jobs_by_due (s : DB) : List Job :=
  (s.jobs.filter build_schedule_condition).mergeSort scheduleLE

theorem scheduleLE_trans (a b c : Job) (h1 : scheduleLE a b = true)
    (h2 : scheduleLE b c = true) : scheduleLE a c = true := by
  unfold scheduleLE at h1 h2 ⊢
  cases ha : a.date_next_due <;> cases hb : b.date_next_due <;>
    cases hc : c.date_next_due <;>
      simp_all <;> omega

theorem scheduleLE_total (a b : Job) :
    (scheduleLE a b || scheduleLE b a) = true := by
  unfold scheduleLE
  cases ha : a.date_next_due <;> cases hb : b.date_next_due <;> simp <;> omega

/-- Claim C8: the schedule display is a permutation of the jobs passing
the schedule condition in which every job with a null date_next_due comes
before every job with a set date_next_due, and jobs with a set
date_next_due appear in ascending order of date_next_due. -/
theorem claim8_schedule_ordering (s : DB) :
    (jobs_by_due s).Perm (s.jobs.filter build_schedule_condition) ∧
    (jobs_by_due s).Pairwise (fun a b =>
      (b.date_next_due = none → a.date_next_due = none) ∧
      ∀ x y, a.date_next_due = some x → b.date_next_due = some y → x ≤ y) := by
  constructor
  · exact List.mergeSort_perm (s.jobs.filter build_schedule_condition) scheduleLE
  · have hs := List.sorted_mergeSort scheduleLE_trans scheduleLE_total
      (s.jobs.filter build_schedule_condition)
    apply hs.imp
    intro a b hab
    unfold scheduleLE at hab
    constructor
    · intro hb
      cases ha : a.date_next_due with
      | none => rfl
      | some x => rw [ha, hb] at hab; simp at hab
    · intro x y hx hy
      rw [hx, hy] at hab
      simpa using hab

/- Weekly bucket sums of the stats page: SUM(Job.price) over the join
   restricted to history rows with timestamp in [week_start, week_end),
   for the theoretical series regardless of paid and for the actual series
   restricted to paid rows. -/
def theoretical_week (s : DB) (week_start week_end : Int) : Int :=
  (s.jobs.flatMap (fun j => s.histories.filterMap (fun h =>
    if h.job_id == j.idjob
        && (decide (week_start ≤ h.timestamp) && decide (h.timestamp < week_end))
      then j.price else none))).sum

def actual_week (s : DB) (week_start week_end : Int) : Int :=
  (s.jobs.flatMap (fun j => s.histories.filterMap (fun h =>
    if h.job_id == j.idjob
        && (decide (week_start ≤ h.timestamp) && decide (h.timestamp < week_end)
            && h.paid)
      then j.price else none))).sum

structure WeekBucket where
  week : Int
  theoretical : Int
  actual : Int
deriving DecidableEq

/- One bucket of the stats loop body for loop variable i: the window is
   [today - (i+1) weeks, today - i weeks), labeled by its start. -/
def week_bucket (s : DB) (today : Int) (i : Int) : WeekBucket :=
  { week := today - (i + 1) * oneWeek
    theoretical := theoretical_week s (today - (i + 1) * oneWeek)
        (today - i * oneWeek)
    actual := actual_week s (today - (i + 1) * oneWeek)
        (today - i * oneWeek) }

/- The stats loop for i in range(7, -1, -1) appends a bucket for each i;
   writing k for the output position, i = 7 - k, oldest bucket first. -/
def weekly_earnings (s : DB) (today : Int) : List WeekBucket :=
  (List.range 8).map (fun (k : Nat) => week_bucket s today (7 - (k : Int)))

theorem theoretical_week_eq_rowSum (s : DB) (ws we : Int)
    (nd : (s.jobs.map Job.idjob).Nodup) :
    theoretical_week s ws we = rowSum s (fun h =>
      decide (ws ≤ h.timestamp) && decide (h.timestamp < we)) := by
  unfold theoretical_week
  have hconv : (s.jobs.flatMap (fun j => s.histories.filterMap (fun h =>
      if h.job_id == j.idjob
          && (decide (ws ≤ h.timestamp) && decide (h.timestamp < we))
        then j.price else none))).sum
    = (s.jobs.flatMap (fun j => s.histories.filterMap (fun h =>
      if h.job_id == j.idjob
          && (decide (ws ≤ h.timestamp) && decide (h.timestamp < we))
        then some (j.price.getD 0) else none))).sum := by
    rw [sum_flatMap, sum_flatMap]
    congr 1
    apply List.map_congr_left
    intro j _
    exact sum_filterMap_option s.histories _ j.price
  rw [hconv, join_sum_eq_lookup s.jobs s.histories
    (fun h => decide (ws ≤ h.timestamp) && decide (h.timestamp < we))
    (fun j => j.price.getD 0) nd]
  unfold rowSum
  rw [sum_map_filter]

theorem actual_week_eq_rowSum (s : DB) (ws we : Int)
    (nd : (s.jobs.map Job.idjob).Nodup) :
    actual_week s ws we = rowSum s (fun h =>
      decide (ws ≤ h.timestamp) && decide (h.timestamp < we) && h.paid) := by
  unfold actual_week
  have hconv : (s.jobs.flatMap (fun j => s.histories.filterMap (fun h =>
      if h.job_id == j.idjob
          && (decide (ws ≤ h.timestamp) && decide (h.timestamp < we) && h.paid)
        then j.price else none))).sum
    = (s.jobs.flatMap (fun j => s.histories.filterMap (fun h =>
      if h.job_id == j.idjob
          && (decide (ws ≤ h.timestamp) && decide (h.timestamp < we) && h.paid)
        then some (j.price.getD 0) else none))).sum := by
    rw [sum_flatMap, sum_flatMap]
    congr 1
    apply List.map_congr_left
    intro j _
    exact sum_filterMap_option s.histories _ j.price
  rw [hconv, join_sum_eq_lookup s.jobs s.histories
    (fun h => decide (ws ≤ h.timestamp) && decide (h.timestamp < we) && h.paid)
    (fun j => j.price.getD 0) nd]
  unfold rowSum
  rw [sum_map_filter]

/-- Claim C7: weekly_earnings(now, 8) produces exactly 8 buckets ordered
oldest to newest; the bucket at position k covers the half-open window
starting at now minus (8 - k) weeks and one week long, is labeled by that
window start, its theoretical value sums the owning job price over all
history rows with timestamp in the window, and its actual value sums the
same restricted to paid rows. -/
theorem claim7_weekly_buckets (s : DB) (today : Int)
    (nd : (s.jobs.map Job.idjob).Nodup) :
    (weekly_earnings s today).length = 8 ∧
    ∀ (k : Nat) (hk : k < (weekly_earnings s today).length),
      ((weekly_earnings s today).get ⟨k, hk⟩).week
          = today - (8 - (k : Int)) * oneWeek ∧
      ((weekly_earnings s today).get ⟨k, hk⟩).theoretical
          = rowSum s (fun h =>
              decide (today - (8 - (k : Int)) * oneWeek ≤ h.timestamp) &&
              decide (h.timestamp < today - (8 - (k : Int)) * oneWeek + oneWeek)) ∧
      ((weekly_earnings s today).get ⟨k, hk⟩).actual
          = rowSum s (fun h =>
              decide (today - (8 - (k : Int)) * oneWeek ≤ h.timestamp) &&
              decide (h.timestamp < today - (8 - (k : Int)) * oneWeek + oneWeek)
              && h.paid) := by
  have hlen : (weekly_earnings s today).length = 8 := by
    simp only [weekly_earnings, List.length_map, List.length_range]
  refine ⟨hlen, ?_⟩
  intro k hk
  have harith1 : today - ((7 - (k : Int)) + 1) * oneWeek
      = today - (8 - (k : Int)) * oneWeek := by ring
  have harith2 : today - ((7 : Int) - (k : Int)) * oneWeek
      = today - (8 - (k : Int)) * oneWeek + oneWeek := by ring
  have hget : (weekly_earnings s today).get ⟨k, hk⟩
      = week_bucket s today (7 - (k : Int)) := by
    simp only [weekly_earnings, List.get_eq_getElem, List.getElem_map,
      List.getElem_range]
  rw [hget]
  unfold week_bucket
  rw [harith1, harith2]
  refine ⟨rfl, ?_, ?_⟩
  · exact theoretical_week_eq_rowSum s _ _ nd
  · exact actual_week_eq_rowSum s _ _ nd

/- Concrete database for the weekly bucket witness: one job, one paid
   completion a little after nine weeks. -/
def wkDB : DB :=
  { addresses := [], zones := []
    jobs := [{ idjob := 3, price := some 40, dateLastDone := none
               frequency := some 7, address_id := none, zone_id := none
               customer_id := none, info := none, date_next_due := none
               payment_type_id := none }]
    histories := [{ idjob_history := 1, job_id := 3
                    timestamp := 9 * oneWeek + 100, paid := true
                    payment_type_id := some 1 }] }

/-- Witness for claim C7: at today equal to ten weeks, the listing has 8
buckets; the newest bucket (position 7) starts one week before today and
both its series pick up the single paid completion of price 40. -/
theorem claim7_witness :
    (weekly_earnings wkDB (10 * oneWeek)).length = 8 ∧
    ((weekly_earnings wkDB (10 * oneWeek)).get ⟨7, by decide⟩).week
      = 10 * oneWeek - (8 - ((7 : Nat) : Int)) * oneWeek ∧
    ((weekly_earnings wkDB (10 * oneWeek)).get ⟨7, by decide⟩).theoretical
      = 40 ∧
    ((weekly_earnings wkDB (10 * oneWeek)).get ⟨7, by decide⟩).actual = 40 := by
  have T := claim7_weekly_buckets wkDB (10 * oneWeek) (by decide)
  exact ⟨T.1, (T.2 7 (by decide)).1, by decide, by decide⟩

/- mark_job_paid: get_or_404 on the history id, then set the paid flag of
   that row; none models the 404 outcome. -/
def mark_job_paid (s : DB) (history_id : Nat) : Option DB :=
  match s.histories.find? (fun h => h.idjob_history == history_id) with
  | none => none
  | some _ => some { s with histories := s.histories.map (fun h =>
      if h.idjob_history == history_id then { h with paid := true } else h) }

/- The zone_payment_distribution base query of the stats page: JobHistory
   joined to Job, left-joined to Zone, restricted to rows whose payment
   type is not null; each kept row yields the optional zone name and the
   payment type id. -/
def payment_row (zones : List Zone) (jobs : List Job) (h : JobHistory) :
    Option (Option String × Int) :=
  match h.payment_type_id with
  | none => none
  | some pt =>
    match jobs.find? (fun j => j.idjob == h.job_id) with
    | none => none
    | some j =>
      some ((j.zone_id.bind (fun z =>
        zones.find? (fun zn => zn.idzone == z))).map Zone.name, pt)

def payment_rows (zones : List Zone) (jobs : List Job)
    (hs : List JobHistory) : List (Option String × Int) :=
  hs.filterMap (payment_row zones jobs)

def payment_query (s : DB) : List (Option String × Int) :=
  payment_rows s.zones s.jobs s.histories

theorem payment_rows_ignore_paid (zones : List Zone) (jobs : List Job)
    (hs : List JobHistory) (hid : Nat) :
    payment_rows zones jobs (hs.map (fun h =>
      if h.idjob_history == hid then { h with paid := true } else h))
      = payment_rows zones jobs hs := by
  unfold payment_rows
  rw [List.filterMap_map]
  congr 1
  funext h
  by_cases hc : (h.idjob_history == hid) = true
  · simp only [Function.comp_apply, if_pos hc]
    rfl
  · simp only [Function.comp_apply, if_neg hc]

theorem filterMap_filter_isSome_key {α β γ : Type} (f : α → Option β)
    (key : α → Option γ) (hf : ∀ a, key a = none → f a = none)
    (l : List α) :
    (l.filter (fun a => (key a).isSome)).filterMap f = l.filterMap f := by
  induction l with
  | nil => rfl
  | cons a t ih =>
    cases hk : key a with
    | none =>
      rw [List.filter_cons]
      simp only [hk, Option.isSome_none, Bool.false_eq_true, if_false]
      rw [ih, List.filterMap_cons, hf a hk]
    | some v =>
      rw [List.filter_cons]
      simp only [hk, Option.isSome_some, if_true]
      rw [List.filterMap_cons, List.filterMap_cons, ih]

theorem payment_rows_filter_some (zones : List Zone) (jobs : List Job)
    (hs : List JobHistory) :
    payment_rows zones jobs (hs.filter (fun h => h.payment_type_id.isSome))
      = payment_rows zones jobs hs := by
  unfold payment_rows
  refine filterMap_filter_isSome_key _ (fun h => h.payment_type_id) ?_ hs
  intro a ha
  have ha' : a.payment_type_id = none := ha
  unfold payment_row
  rw [ha']

/-- Claim C10: a successful mark_job_paid(history_id) changes only the
paid flag of the identified history row to true; the timestamps,
payment types and ids of every history row, and the whole Jobs table
(dateLastDone and date_next_due included), are unchanged; the
zone_payment_distribution query is unchanged by the operation, and it in
any case counts only rows whose payment type is not null, so the row just
marked paid with a null payment type stays excluded from it. -/
theorem claim10_mark_paid_frame (s : DB) (history_id : Nat) (s' : DB)
    (hok : mark_job_paid s history_id = some s') :
    s'.addresses = s.addresses ∧ s'.zones = s.zones ∧ s'.jobs = s.jobs ∧
    s'.histories.length = s.histories.length ∧
    (∀ (k : Nat) (hk' : k < s'.histories.length)
        (hk : k < s.histories.length),
      (s'.histories.get ⟨k, hk'⟩).idjob_history
          = (s.histories.get ⟨k, hk⟩).idjob_history ∧
      (s'.histories.get ⟨k, hk'⟩).job_id
          = (s.histories.get ⟨k, hk⟩).job_id ∧
      (s'.histories.get ⟨k, hk'⟩).timestamp
          = (s.histories.get ⟨k, hk⟩).timestamp ∧
      (s'.histories.get ⟨k, hk'⟩).payment_type_id
          = (s.histories.get ⟨k, hk⟩).payment_type_id ∧
      (s'.histories.get ⟨k, hk'⟩).paid
          = (if (s.histories.get ⟨k, hk⟩).idjob_history == history_id then
              true else (s.histories.get ⟨k, hk⟩).paid)) ∧
    payment_query s' = payment_query s ∧
    payment_query s = payment_rows s.zones s.jobs
        (s.histories.filter (fun h => h.payment_type_id.isSome)) := by
  have hshape : s' = { s with histories := s.histories.map (fun h =>
      if h.idjob_history == history_id then { h with paid := true }
      else h) } := by
    unfold mark_job_paid at hok
    cases hfind : s.histories.find? (fun h => h.idjob_history == history_id)
      with
    | none => rw [hfind] at hok; exact absurd hok (by simp)
    | some h0 =>
      rw [hfind] at hok
      injection hok with hok
      exact hok.symm
  subst hshape
  refine ⟨rfl, rfl, rfl, by simp, ?_, ?_, ?_⟩
  · intro k hk' hk
    simp only [List.get_eq_getElem, List.getElem_map]
    by_cases hc : ((s.histories[k]).idjob_history == history_id) = true
    · simp [hc]
    · simp [hc]
  · exact payment_rows_ignore_paid s.zones s.jobs s.histories history_id
  · exact (payment_rows_filter_some s.zones s.jobs s.histories).symm

/- Concrete database for the mark-paid witness: a zone, a job in it, and
   one unpaid completion with a null payment type. -/
def mpDB : DB :=
  { addresses := []
    zones := [{ idzone := 1, name := "North" }]
    jobs := [{ idjob := 4, price := some 25, dateLastDone := none
               frequency := some 7, address_id := none, zone_id := some 1
               customer_id := none, info := none, date_next_due := none
               payment_type_id := none }]
    histories := [{ idjob_history := 9, job_id := 4, timestamp := 100
                    paid := false, payment_type_id := none }] }

def mpDB' : DB :=
  { mpDB with
    histories := [{ idjob_history := 9, job_id := 4, timestamp := 100
                    paid := true, payment_type_id := none }] }

/-- Witness for claim C10: marking the single unpaid row paid succeeds,
leaves the jobs untouched, produces a row with paid true and a null
payment type, and the payment distribution query is unchanged and empty. -/
theorem claim10_witness :
    payment_query mpDB' = payment_query mpDB ∧
    mpDB'.jobs = mpDB.jobs ∧
    payment_query mpDB = payment_rows mpDB.zones mpDB.jobs
      (mpDB.histories.filter (fun h => h.payment_type_id.isSome)) ∧
    mark_job_paid mpDB 9 = some mpDB' ∧
    (mpDB'.histories.get ⟨0, by decide⟩).paid = true ∧
    (mpDB'.histories.get ⟨0, by decide⟩).payment_type_id = none ∧
    payment_query mpDB' = [] := by
  have T := claim10_mark_paid_frame mpDB 9 mpDB' (by decide)
  exact ⟨T.2.2.2.2.2.1, T.2.2.1, T.2.2.2.2.2.2, by decide, by decide,
    by decide, by decide⟩
